import Mathlib

/-!
Verification of the daiv-sandbox session engine against its specification.

The Python sources (daiv_sandbox/sessions.py, daiv_sandbox/main.py,
daiv_sandbox/schemas.py, daiv_sandbox/scripts.py, daiv_sandbox/config.py) are
shallowly embedded below.  Strings are modelled as `List Char`, byte strings as
`List Nat`, tar archives as lists of parsed members, and fallible Python code
as `Except`-valued functions.  Container-engine side effects are modelled as
explicit effect lists so that "refused before any state is modified" is the
statement that the error case produces no effect list.
-/

namespace DaivSandbox

/-- Errors raised by the embedded Python code.  `valueError` carries the
message of a Python `ValueError`; `attributeError` carries the name of the
missing attribute of a Python `AttributeError`; `httpPatchFailed` is the
HTTP 500 raised by the patch-extraction path of `run_on_session`. -/
inductive PyError where
  | valueError (msg : List Char)
  | attributeError (attr : List Char)
  | httpPatchFailed
  deriving Repr, DecidableEq

/-- HTTP status code surfaced for an uncaught error of the embedded handlers:
a Python `ValueError`/`AttributeError` escaping a FastAPI handler surfaces as
HTTP 500, and the explicit `HTTPException` of the patch path carries 500. -/
def PyError.httpStatus : PyError → Nat
  | .valueError _ => 500
  | .attributeError _ => 500
  | .httpPatchFailed => 500

/-! ### Configuration (daiv_sandbox/config.py) -/

/-- Embeds the `Settings` model of config.py (the fields the claims need). -/
structure Settings where
  RUN_UID : Nat := 1000
  RUN_GID : Nat := 1000
  deriving Repr, DecidableEq

/-- The process-wide `settings` object with config.py's default values. -/
def settings : Settings := {}

/-! ### POSIX path helpers

`pathlib.PurePosixPath` behaviour needed by sessions.py: a path is absolute
iff it starts with a slash; its relative components are the slash-separated
groups with empty and `"."` groups dropped (pathlib collapses spurious
slashes and single dots); `str()` of a relative path joins the components
with slashes, an empty relative path printing as `"."`. -/

/-- Split a character list on the slash character (like `str.split("/")`). -/
def splitOnSlash : List Char → List (List Char)
  | [] => [[]]
  | c :: t =>
    if c = '/' then [] :: splitOnSlash t
    else
      match splitOnSlash t with
      | [] => [[c]]
      | g :: gs => (c :: g) :: gs

/-- A component is kept by `PurePosixPath` iff it is neither empty nor `"."`. -/
def keptComp (g : List Char) : Bool :=
  decide (g ≠ [] ∧ g ≠ ['.'])

/-- The (relative) components of a `PurePosixPath`. -/
def posixComps (l : List Char) : List (List Char) :=
  (splitOnSlash l).filter keptComp

/-- `PurePosixPath.is_absolute()`: the raw path starts with a slash. -/
def isAbsolutePath (l : List Char) : Bool :=
  match l with
  | [] => false
  | c :: _ => c = '/'

/-- Join components with slashes (the relative part of `str(PurePosixPath)`). -/
def joinComps : List (List Char) → List Char
  | [] => []
  | [g] => g
  | g :: gs => g ++ '/' :: joinComps gs

/-- `str()` of a relative `PurePosixPath` built from `l`: the joined kept
components, with the empty path printing as `"."`. -/
def posixStr (l : List Char) : List Char :=
  match posixComps l with
  | [] => ['.']
  | comps => joinComps comps

/-- A path contains a `".."` segment iff `".."` is among its components
(`".." in PurePosixPath(name).parts`; the absolute-root part is never
`".."`). -/
def hasDotDotSegment (l : List Char) : Bool :=
  decide (['.', '.'] ∈ posixComps l)

/-! ### Archive sanitizer (sessions.py) -/

/-- `SANDBOX_ROOT = "/repo"`. -/
def SANDBOX_ROOT : List Char := "/repo".data

/-- `WORKDIR_ROOT = "/workdir"`. -/
def WORKDIR_ROOT : List Char := "/workdir".data

/-- `SANDBOX_HOME = "/home/daiv-sandbox"`. -/
def SANDBOX_HOME : List Char := "/home/daiv-sandbox".data

/-- The `while name.startswith("./"): name = name[2:]` loop of
`_normalize_tar_member_name`. -/
def stripDotSlashes : List Char → List Char
  | '.' :: '/' :: rest => stripDotSlashes rest
  | l => l

/-- Embeds `_normalize_tar_member_name` (sessions.py lines 38-59).
`Except.ok none` is the Python `None` return (empty/root entry, skipped by
the caller); `Except.error` is the raised `ValueError`. -/
def normalize_tar_member_name (name : List Char) : Except PyError (Option (List Char)) :=
  let name := stripDotSlashes name
  if name = [] ∨ name = ['.'] then .ok none
  else if isAbsolutePath name then
    .error (.valueError "Archive contains an absolute path".data)
  else if hasDotDotSegment name then
    .error (.valueError "Archive contains a parent-directory traversal path".data)
  else
    let normalized := posixStr name
    if normalized = [] ∨ normalized = ['.'] then .ok none else .ok (some normalized)

/-- Tar member types as `tarfile` classifies them.  `reg` covers every type
for which `TarInfo.isfile()` is true; `dir` is `DIRTYPE`; the rest are the
special types (`isfile()` and `isdir()` both false). -/
inductive TarType where
  | reg
  | dir
  | sym
  | lnk
  | chr
  | blk
  | fifo
  | other
  deriving Repr, DecidableEq

/-- `TarInfo.isfile()`. -/
def TarType.isfile : TarType → Bool
  | .reg => true
  | _ => false

/-- `TarInfo.isdir()`. -/
def TarType.isdir : TarType → Bool
  | .dir => true
  | _ => false

/-- A parsed tar member.  `content` is the byte content that
`in_tf.extractfile(member)` yields for a regular member (`tarfile` always
returns a stream for a member with `isfile()` true). -/
structure TarMember where
  name : List Char
  ttype : TarType
  mode : Nat
  size : Nat
  content : List Nat
  uid : Nat
  gid : Nat
  uname : List Char
  gname : List Char
  mtime : Int
  deriving Repr, DecidableEq

/-- Python's `x & ~m` on a nonnegative int: clear in `x` the bits of `m`. -/
def andNot (x m : Nat) : Nat :=
  x - (x &&& m)

/-- The mode computation of `_sanitize_archive_bytes` (sessions.py lines
90-98): mask to `0o777`, clear `0o7000`, add `a+r` and `u+w`, then set or
clear the execute bits depending on `member.isdir() or (base_mode & 0o111)`. -/
def sanitizeMode (inMode : Nat) (isdir : Bool) : Nat :=
  let base := andNot (inMode &&& 0o777) 0o7000
  let mode := base ||| 0o444 ||| 0o200
  if isdir ∨ base &&& 0o111 ≠ 0 then mode ||| 0o111 else andNot mode 0o111

/-- The §4.1 permission policy as the specification words it, for comparison
with the code's `sanitizeMode`: (a) mask the input mode to the 9 permission
bits, (b) clear setuid/setgid/sticky, (c) add `a+r` and `u+w`, (d) set all
three execute bits iff the entry is a directory or any execute bit was
present in the input mode, and clear them otherwise. -/
def claimedMode (inMode : Nat) (isdir : Bool) : Nat :=
  let masked := inMode &&& 0o777
  let cleared := andNot masked 0o7000
  let withRW := cleared ||| 0o444 ||| 0o200
  if isdir ∨ inMode &&& 0o111 ≠ 0 then withRW ||| 0o111 else andNot withRW 0o111

/-- The body of the member loop of `_sanitize_archive_bytes` (sessions.py
lines 79-124) for a single member: `Except.ok none` models the `continue` on
a skipped empty/root name, `Except.ok (some m')` the member appended to the
output archive, `Except.error` a raised `ValueError`.  The output member is a
fresh `TarInfo` carrying only the normalized name, the sanitized mode, the
supplied uid/gid, empty uname/gname, zero mtime, and (for a regular file) the
input member's size and content bytes. -/
def sanitize_member (uid gid : Nat) (m : TarMember) : Except PyError (Option TarMember) := do
  match ← normalize_tar_member_name m.name with
  | none => pure none
  | some normalizedName =>
    if ¬ (m.ttype.isfile ∨ m.ttype.isdir) then
      throw (.valueError "Archive contains an unsupported entry type".data)
    else if m.ttype.isdir then
      pure (some
        { name := normalizedName
          ttype := .dir
          mode := sanitizeMode m.mode true
          size := 0
          content := []
          uid := uid
          gid := gid
          uname := []
          gname := []
          mtime := 0 })
    else
      pure (some
        { name := normalizedName
          ttype := .reg
          mode := sanitizeMode m.mode false
          size := m.size
          content := m.content
          uid := uid
          gid := gid
          uname := []
          gname := []
          mtime := 0 })

/-- Embeds `_sanitize_archive_bytes` (sessions.py lines 62-128) at the level
of parsed members: the input is the member list of a successfully parsed
(possibly gzip-compressed) tar stream, the output the member list of the
emitted uncompressed tar.  A raised `ValueError` aborts the whole call, so an
error on any member yields `Except.error` and no output members. -/
def sanitize_archive_bytes (uid gid : Nat) : List TarMember → Except PyError (List TarMember)
  | [] => .ok []
  | m :: ms => do
    let r ← sanitize_member uid gid m
    let rest ← sanitize_archive_bytes uid gid ms
    match r with
    | none => pure rest
    | some m' => pure (m' :: rest)

/-! ### Users and environment (sessions.py) -/

/-- Embeds `SandboxDockerSession._get_user` (sessions.py lines 455-459):
the string `f"{RUN_UID}:{RUN_GID}"`. -/
def get_user (cfg : Settings) : List Char :=
  (toString cfg.RUN_UID).data ++ ':' :: (toString cfg.RUN_GID).data

/-- Embeds `SandboxDockerSession._get_exec_environment` (sessions.py lines
461-474). -/
def get_exec_environment : List (List Char × List Char) :=
  [("HOME".data, SANDBOX_HOME),
   ("XDG_CACHE_HOME".data, SANDBOX_HOME ++ "/.cache".data),
   ("XDG_CONFIG_HOME".data, SANDBOX_HOME ++ "/.config".data),
   ("XDG_STATE_HOME".data, SANDBOX_HOME ++ "/.local/state".data),
   ("XDG_DATA_HOME".data, SANDBOX_HOME ++ "/.local/share".data)]

/-! ### Path resolution against the sandbox root (sessions.py) -/

/-- `(Path(SANDBOX_ROOT) / d).as_posix()` for a relative `d`: pathlib keeps
the `"/repo"` anchor and appends the components of `d` (spurious slashes and
single dots collapsed, `".."` kept). -/
def pathJoinRepo (d : List Char) : List Char :=
  match posixComps d with
  | [] => SANDBOX_ROOT
  | comps => SANDBOX_ROOT ++ '/' :: joinComps comps

/-- The shared resolution pattern of `copy_to_container` (sessions.py lines
360-362) and `execute_command` (lines 425-427): default `SANDBOX_ROOT` when
the argument is `None` or empty (Python falsiness), keep an absolute path
as-is, resolve a relative path under `SANDBOX_ROOT`. -/
def resolve_under_sandbox_root (p : Option (List Char)) : List Char :=
  match p with
  | none => SANDBOX_ROOT
  | some d =>
    if d = [] then SANDBOX_ROOT
    else if isAbsolutePath d then d
    else pathJoinRepo d

/-- `to_dir.rstrip("/")`. -/
def rstripSlash (l : List Char) : List Char :=
  (l.reverse.dropWhile (· = '/')).reverse

/-! ### copy_to_container (sessions.py lines 338-410) -/

/-- The container-engine calls `copy_to_container` performs after its checks
pass, in order: the optional `rm -rf` clear, `mkdir -p`, `put_archive`, the
recursive `chmod`, the recursive `chown`. -/
inductive ContainerEffect where
  | execRmClear (dir : List Char)
  | execMkdir (dir : List Char)
  | putArchive (dir : List Char) (members : List TarMember)
  | execChmodR (dir : List Char)
  | execChownR (dir : List Char)
  deriving Repr, DecidableEq

/-- Embeds `SandboxDockerSession.copy_to_container` (sessions.py lines
338-410).  `tardata` is the parsed member list of the incoming archive bytes.
The result is the ordered list of container-mutating engine calls; a raised
`ValueError` (from sanitation or from the destination checks) aborts the call
before any of them happen.  Engine calls themselves are modelled as
succeeding (their failure branches raise `RuntimeError` after the container
was already touched, which no claim is about). -/
def copy_to_container (cfg : Settings) (tardata : List TarMember)
    (dest : Option (List Char)) (clear_before_copy : Bool) :
    Except PyError (List ContainerEffect) := do
  let sanitized ← sanitize_archive_bytes cfg.RUN_UID cfg.RUN_GID tardata
  let to_dir := resolve_under_sandbox_root dest
  let stripped := rstripSlash to_dir
  let to_dir_norm := if stripped = [] then ['/'] else stripped
  if to_dir_norm = [] ∨ to_dir_norm = ['/'] then
    throw (.valueError "Refusing to extract an archive into the container root directory".data)
  else if ¬ (to_dir_norm = SANDBOX_ROOT ∨ to_dir_norm = WORKDIR_ROOT ∨
      (SANDBOX_ROOT ++ ['/']).isPrefixOf to_dir_norm ∨
      (WORKDIR_ROOT ++ ['/']).isPrefixOf to_dir_norm) then
    throw (.valueError "Refusing to extract an archive outside of the sandbox roots".data)
  else
    let pre := if clear_before_copy then [ContainerEffect.execRmClear to_dir_norm] else []
    pure (pre ++
      [ContainerEffect.execMkdir to_dir_norm,
       ContainerEffect.putArchive to_dir_norm sanitized,
       ContainerEffect.execChmodR to_dir_norm,
       ContainerEffect.execChownR to_dir_norm])

/-- Collapse `".."` segments of an already-split absolute path, the way the
kernel resolves the extraction target (`"/repo/../etc"` resolves to
`"/etc"`); used only to state what a destination actually resolves to. -/
def collapseDots (comps : List (List Char)) : List (List Char) :=
  comps.foldl (fun acc c => if c = ['.', '.'] then acc.dropLast else acc ++ [c]) []

/-- The filesystem path `p` actually lies under `/repo` or `/workdir` once
its `".."` segments are resolved. -/
def resolvedUnderSandboxRoots (p : List Char) : Bool :=
  let r := collapseDots (posixComps p)
  (posixComps SANDBOX_ROOT).isPrefixOf r ∨ (posixComps WORKDIR_ROOT).isPrefixOf r

/-! ### execute_command (sessions.py lines 412-453) -/

/-- One `container.exec_run` invocation as `execute_command` issues it. -/
structure ExecRunCall where
  argv : List (List Char)
  workdir : List Char
  user : List Char
  environment : List (List Char × List Char)
  deriving Repr, DecidableEq

/-- Embeds the `RunResult` schema (schemas.py lines 52-56); `output` is the
decoded combined output, modelled at the byte level. -/
structure RunResult where
  command : List Char
  output : List Nat
  exit_code : Int
  workdir : List Char
  deriving Repr, DecidableEq

/-- Embeds `SandboxDockerSession.execute_command` (sessions.py lines
412-453).  The engine's behaviour for the command is supplied as the oracle
pair `execOutput`/`execExit` (what `exec_run` returns); the function yields
the `exec_run` call it issues and the `RunResult` it builds from the oracle. -/
def execute_command (cfg : Settings) (command : List Char)
    (workdir : Option (List Char)) (execOutput : List Nat) (execExit : Int) :
    ExecRunCall × RunResult :=
  let command_workdir := resolve_under_sandbox_root workdir
  ({ argv := ["/bin/sh".data, "-c".data, command]
     workdir := command_workdir
     user := get_user cfg
     environment := get_exec_environment },
   { command := command
     output := execOutput
     exit_code := execExit
     workdir := command_workdir })

/-! ### The run_on_session command loop (main.py lines 187-193) -/

/-- A command of a `run_on_session` request together with the oracle outcome
the container engine would produce for it. -/
structure CommandSpec where
  command : List Char
  output : List Nat
  exit_code : Int
  deriving Repr, DecidableEq

/-- Embeds the `RunRequest` schema (schemas.py lines 31-49); each command
carries its engine oracle. -/
structure RunRequest where
  commands : List CommandSpec
  workdir : Option (List Char)
  archive : Option (List TarMember)
  fail_fast : Bool
  deriving Repr, DecidableEq

/-- The `for command in request.commands` loop of `run_on_session` (main.py
lines 187-193): each command is executed via `execute_command(command)` —
no workdir argument is passed — and the loop breaks after appending the
result when `fail_fast` is set and the exit code is non-zero. -/
def run_commands_loop (cfg : Settings) (fail_fast : Bool) :
    List CommandSpec → List (ExecRunCall × RunResult)
  | [] => []
  | c :: rest =>
    let step := execute_command cfg c.command none c.output c.exit_code
    if fail_fast ∧ c.exit_code ≠ 0 then [step]
    else step :: run_commands_loop cfg fail_fast rest

/-- The exec calls and results of a `run_on_session` request: the request's
`workdir` field is not consulted by main.py's loop. -/
def run_on_session_execs (cfg : Settings) (req : RunRequest) :
    List (ExecRunCall × RunResult) :=
  run_commands_loop cfg req.fail_fast req.commands

/-- The `results` list of the `run_on_session` response. -/
def run_on_session_results (cfg : Settings) (req : RunRequest) : List RunResult :=
  (run_on_session_execs cfg req).map Prod.snd

/-! ### Patch extraction outcome (main.py lines 38, 195-224) -/

/-- `NO_CHANGES_MESSAGE = "nothing to commit, working tree clean"`, as
bytes. -/
def NO_CHANGES_MESSAGE : List Nat :=
  "nothing to commit, working tree clean".data.map Char.toNat

/-- Python's substring test `needle in hay`. -/
def containsSub (needle hay : List Nat) : Bool :=
  match hay with
  | [] => needle = []
  | _ :: t => needle.isPrefixOf hay || containsSub needle t

/-- A byte is ASCII whitespace (the bytes `str.strip()` removes on the ASCII
plane: space, tab, newline, vertical tab, form feed, carriage return). -/
def isSpaceByte (b : Nat) : Bool :=
  b = 32 ∨ b = 9 ∨ b = 10 ∨ b = 11 ∨ b = 12 ∨ b = 13

/-- `output.strip()` at the byte level. -/
def stripBytes (l : List Nat) : List Nat :=
  ((l.dropWhile isSpaceByte).reverse.dropWhile isSpaceByte).reverse

/-- The base64 alphabet. -/
def b64alphabet : List Char :=
  "ABCDEFGHIJKLMNOPQRSTUVWXYZabcdefghijklmnopqrstuvwxyz0123456789+/".data

/-- The base64 digit for a 6-bit value. -/
def b64digit (n : Nat) : Char :=
  b64alphabet.getD n '='

/-- RFC 4648 base64 encoding (`base64.b64encode`). -/
def base64Encode : List Nat → List Char
  | [] => []
  | [a] =>
    [b64digit (a % 256 / 4), b64digit (a % 4 * 16), '=', '=']
  | [a, b] =>
    [b64digit (a % 256 / 4), b64digit (a % 4 * 16 + b % 256 / 16),
     b64digit (b % 16 * 4), '=']
  | a :: b :: c :: rest =>
    b64digit (a % 256 / 4) :: b64digit (a % 4 * 16 + b % 256 / 16) ::
      b64digit (b % 16 * 4 + c % 256 / 64) :: b64digit (c % 64) ::
      base64Encode rest

/-- Embeds the patch-decision code of `run_on_session` (main.py lines
210-222) as a function of the diff step's exit code and output bytes:
`Except.error` is the raised `HTTPException` (`PATCH_FAILED`, HTTP 500),
`Except.ok none` a null `patch`, `Except.ok (some p)` the base64 patch. -/
def extract_patch_outcome (exit_code : Int) (output : List Nat) :
    Except PyError (Option (List Char)) :=
  if exit_code ≠ 0 ∧ ¬ containsSub NO_CHANGES_MESSAGE output then
    .error .httpPatchFailed
  else if containsSub NO_CHANGES_MESSAGE output ∨ stripBytes output = [] then
    .ok none
  else
    .ok (some (base64Encode output))

/-! ### Container creation (sessions.py lines 253-295) -/

/-- Opaque Python values for the keyword arguments forwarded to
`containers.run` and for pydantic field values. -/
inductive PyVal where
  | pnone
  | pbool (b : Bool)
  | pstr (s : List Char)
  | pnat (n : Nat)
  | pdict (d : List (List Char × List Char))
  deriving Repr, DecidableEq

/-- Python truthiness of a `PyVal`. -/
def PyVal.truthy : PyVal → Bool
  | .pnone => false
  | .pbool b => b
  | .pstr s => s ≠ []
  | .pnat n => n ≠ 0
  | .pdict d => d ≠ []

/-- The `containers.run` call `_start_container` issues. -/
structure ContainerRunCall where
  image : List Char
  entrypoint : List Char
  command : List (List Char)
  user : List Char
  kwargs : List (List Char × PyVal)
  deriving Repr, DecidableEq

/-- Embeds `SandboxDockerSession._start_container` (sessions.py lines
253-295): a `"user"` entry among the forwarded kwargs raises a `ValueError`
before any engine call; otherwise the container is created with the fixed
entrypoint and `user=self._get_user()`. -/
def start_container (cfg : Settings) (image : List Char)
    (kwargs : List (List Char × PyVal)) : Except PyError ContainerRunCall :=
  if "user".data ∈ kwargs.map Prod.fst then
    .error (.valueError "Sandbox containers always run as a non-root user; overriding user is not allowed.".data)
  else
    .ok
      { image := image
        entrypoint := "/bin/sh".data
        command := ["-lc".data, "sleep 3600".data]
        user := get_user cfg
        kwargs := kwargs }

/-! ### close_session (main.py lines 227-256, sessions.py lines 170-179,
297-309, 476-523) -/

/-- A container as the engine knows it: its labels. -/
structure ContainerInfo where
  labels : List (List Char × List Char)
  deriving Repr, DecidableEq

/-- The engine state `close_session` touches: containers by id, and named
volumes. -/
structure DockerState where
  containers : List (List Char × ContainerInfo)
  volumes : List (List Char)
  deriving Repr, DecidableEq

/-- Association-list lookup (Python `dict.get`). -/
def lookupAssoc (l : List (List Char × α)) (k : List Char) : Option α :=
  match l with
  | [] => none
  | (k', v) :: t => if k' = k then some v else lookupAssoc t k

/-- `SandboxDockerSession.__init__` + `_get_container`: the session's
container handle, `None` when the engine raises `NotFound` (removed or never
existing id). -/
def session_container (st : DockerState) (sid : List Char) : Option ContainerInfo :=
  lookupAssoc st.containers sid

/-- Embeds `SandboxDockerSession.get_label` (sessions.py lines 513-523):
`self.container.attrs[...]`.  When the session's container is `None` the
attribute access raises `AttributeError` (surfacing as HTTP 500); otherwise
the label value, or `None` if unset. -/
def get_label (container : Option ContainerInfo) (label : List Char) :
    Except PyError (Option (List Char)) :=
  match container with
  | none => .error (.attributeError "attrs".data)
  | some c => .ok (lookupAssoc c.labels label)

/-- `SandboxDockerSession.remove_container`: removal with `NotFound`
absorbed (missing ids are logged and ignored). -/
def remove_container (st : DockerState) (sid : List Char) : DockerState :=
  { st with containers := st.containers.filter (fun p => p.1 ≠ sid) }

/-- `daiv.sandbox.patch_extractor_session_id`. -/
def DAIV_SANDBOX_PATCH_EXTRACTOR_SESSION_ID_LABEL : List Char :=
  "daiv.sandbox.patch_extractor_session_id".data

/-- `daiv.sandbox.workdir_volume`. -/
def DAIV_SANDBOX_WORKDIR_VOLUME_LABEL : List Char :=
  "daiv.sandbox.workdir_volume".data

/-- `daiv.sandbox.ephemeral_session`. -/
def DAIV_SANDBOX_EPHEMERAL_SESSION_LABEL : List Char :=
  "daiv.sandbox.ephemeral_session".data

/-- Volume removal during close: every failure (`NotFound`, in-use, ...) is
logged and swallowed, so the model removes the volume when present. -/
def remove_volume_lenient (st : DockerState) (name : List Char) : DockerState :=
  { st with volumes := st.volumes.filter (fun v => v ≠ name) }

/-- Embeds the `close_session` handler (main.py lines 227-256): resolve the
session, read the patch-extractor label, remove the patch extractor (if
recorded) and the executor, then remove the recorded workdir volume
leniently.  Returns the HTTP status (204) and the new engine state; an
uncaught Python exception is the `Except.error` case. -/
def close_session (st : DockerState) (sid : List Char) :
    Except PyError (Nat × DockerState) := do
  let container := session_container st sid
  let patchId ← get_label container DAIV_SANDBOX_PATCH_EXTRACTOR_SESSION_ID_LABEL
  let st1 :=
    match patchId with
    | some pid => remove_container st pid
    | none => st
  let st2 := remove_container st1 sid
  let volumeName ← get_label container DAIV_SANDBOX_WORKDIR_VOLUME_LABEL
  let st3 :=
    match volumeName with
    | some v => remove_volume_lenient st2 v
    | none => st2
  pure (204, st3)

/-! ### start_session and its request schema (schemas.py lines 10-24,
main.py lines 103-158) -/

/-- Embeds the `StartSessionRequest` pydantic model exactly as schemas.py
declares it: the only fields are `base_image`, `dockerfile` and
`extract_patch`. -/
structure StartSessionRequest where
  base_image : Option (List Char)
  dockerfile : Option (List Char)
  extract_patch : Bool
  deriving Repr, DecidableEq

/-- The attribute names main.py's `start_session` handler reads off the
request object. -/
inductive StartSessionAttr where
  | base_image
  | dockerfile
  | extract_patch
  | ephemeral
  | network_enabled
  | environment
  | memory_bytes
  | cpus
  deriving Repr, DecidableEq

/-- The Python attribute name. -/
def StartSessionAttr.pyName : StartSessionAttr → List Char
  | .base_image => "base_image".data
  | .dockerfile => "dockerfile".data
  | .extract_patch => "extract_patch".data
  | .ephemeral => "ephemeral".data
  | .network_enabled => "network_enabled".data
  | .environment => "environment".data
  | .memory_bytes => "memory_bytes".data
  | .cpus => "cpus".data

/-- The fields `StartSessionRequest` declares (schemas.py lines 10-17). -/
def StartSessionRequest.declaredFields : List StartSessionAttr :=
  [.base_image, .dockerfile, .extract_patch]

/-- The value of a declared field. -/
def StartSessionRequest.fieldValue (r : StartSessionRequest) :
    StartSessionAttr → PyVal
  | .base_image => match r.base_image with | none => .pnone | some s => .pstr s
  | .dockerfile => match r.dockerfile with | none => .pnone | some s => .pstr s
  | .extract_patch => .pbool r.extract_patch
  | _ => .pnone

/-- Attribute access on the pydantic request object: a declared field yields
its value, any other attribute raises `AttributeError` (pydantic models store
only declared fields). -/
def StartSessionRequest.getattr (r : StartSessionRequest)
    (a : StartSessionAttr) : Except PyError PyVal :=
  if a ∈ StartSessionRequest.declaredFields then .ok (r.fieldValue a)
  else .error (.attributeError a.pyName)

/-- Embeds the `start_session` handler (main.py lines 103-158) at the level
of its request-attribute reads, in source order: `extract_patch` (line 120),
`ephemeral` (line 135), `network_enabled` (line 143), `environment` (line
146), `memory_bytes` (line 149), `cpus` (line 152), `base_image` (line 156).
The result is the kwargs assembled for the command-executor container. -/
def start_session (req : StartSessionRequest) :
    Except PyError (List Char × List (List Char × PyVal)) := do
  let ep ← req.getattr .extract_patch
  let labels :=
    if ep.truthy then
      [("daiv.sandbox.type".data, PyVal.pstr "cmd_executor".data),
       (DAIV_SANDBOX_PATCH_EXTRACTOR_SESSION_ID_LABEL, PyVal.pstr "patch-extractor-id".data),
       (DAIV_SANDBOX_WORKDIR_VOLUME_LABEL, PyVal.pstr "workdir-volume".data)]
    else
      [("daiv.sandbox.type".data, PyVal.pstr "cmd_executor".data)]
  let eph ← req.getattr .ephemeral
  let labels := if eph.truthy then labels ++ [(DAIV_SANDBOX_EPHEMERAL_SESSION_LABEL, PyVal.pstr "1".data)] else labels
  let net ← req.getattr .network_enabled
  let kwargs := if ¬ net.truthy then [("network_mode".data, PyVal.pstr "none".data)] else []
  let env ← req.getattr .environment
  let kwargs := if env.truthy then kwargs ++ [("environment".data, env)] else kwargs
  let mem ← req.getattr .memory_bytes
  let kwargs := if mem.truthy then kwargs ++ [("mem_limit".data, mem)] else kwargs
  let cp ← req.getattr .cpus
  let kwargs := if cp.truthy then kwargs ++ [("cpus".data, cp)] else kwargs
  let img ← req.getattr .base_image
  let imageName := match img with | .pstr s => s | _ => []
  pure (imageName, kwargs ++ [("labels".data, PyVal.pdict (labels.map (fun p => (p.1, match p.2 with | .pstr s => s | _ => []))))])

/-! ### Derived views of the sanitizer, and concrete instances -/

/-- A member the sanitizer rejects (raising `ValueError`): its `./`-stripped
name is not an empty/root entry, and it is absolute, contains a `".."`
segment, or belongs to a member that is neither a regular file nor a
directory.  (A special-typed member whose name normalizes to empty/root is
skipped before the type check, not rejected.) -/
def member_rejected (m : TarMember) : Bool :=
  let n := stripDotSlashes m.name
  decide (n ≠ [] ∧ n ≠ ['.'] ∧
    (isAbsolutePath n = true ∨ hasDotDotSegment n = true ∨
      (m.ttype.isfile = false ∧ m.ttype.isdir = false)))

/-- The output member a given input member contributes, `none` when it is
skipped; only meaningful on error-free archives. -/
def sanitize_member_accepted (uid gid : Nat) (m : TarMember) : Option TarMember :=
  match sanitize_member uid gid m with
  | .ok r => r
  | .error _ => none

/-- The `RunResult` that `run_on_session`'s loop records for a command. -/
def commandRunResult (cfg : Settings) (c : CommandSpec) : RunResult :=
  (execute_command cfg c.command none c.output c.exit_code).2

/-- A concrete directory member as a tar parser would deliver it. -/
def sampleDir : TarMember :=
  { name := "./pkg/".data
    ttype := .dir
    mode := 0o700
    size := 0
    content := []
    uid := 7
    gid := 8
    uname := "user".data
    gname := "grp".data
    mtime := 99 }

/-- A concrete regular-file member. -/
def sampleFile : TarMember :=
  { name := "pkg/a.txt".data
    ttype := .reg
    mode := 0o4651
    size := 2
    content := [104, 105]
    uid := 7
    gid := 8
    uname := "user".data
    gname := "grp".data
    mtime := 99 }

/-- A concrete archive accepted by the sanitizer. -/
def sampleArchive : List TarMember := [sampleDir, sampleFile]

/-- A symlink member whose name is the root entry `"."`. -/
def rootNamedSymlink : TarMember :=
  { name := ".".data
    ttype := .sym
    mode := 0o777
    size := 0
    content := []
    uid := 0
    gid := 0
    uname := []
    gname := []
    mtime := 0 }

/-- A regular-file member with an absolute path. -/
def absolutePathFile : TarMember :=
  { name := "/etc/passwd".data
    ttype := .reg
    mode := 0o644
    size := 1
    content := [120]
    uid := 0
    gid := 0
    uname := []
    gname := []
    mtime := 0 }

/-- An engine state holding one session container with no labels. -/
def oneSessionState : DockerState :=
  { containers := [("abc".data, { labels := [] })], volumes := [] }

/-- What the sanitizer emits for `sampleDir`. -/
def sampleDirOut : TarMember :=
  { name := "pkg".data
    ttype := .dir
    mode := 0o755
    size := 0
    content := []
    uid := 1000
    gid := 1000
    uname := []
    gname := []
    mtime := 0 }

/-- What the sanitizer emits for `sampleFile`. -/
def sampleFileOut : TarMember :=
  { name := "pkg/a.txt".data
    ttype := .reg
    mode := 0o755
    size := 2
    content := [104, 105]
    uid := 1000
    gid := 1000
    uname := []
    gname := []
    mtime := 0 }

/-- The sanitized form of `sampleArchive`. -/
def sampleArchiveOut : List TarMember := [sampleDirOut, sampleFileOut]

/-- The normalized extraction target `to_dir_norm` of `copy_to_container`
for a given destination argument. -/
def normDest (dest : Option (List Char)) : List Char :=
  let stripped := rstripSlash (resolve_under_sandbox_root dest)
  if stripped = [] then ['/'] else stripped

/-- A `run_on_session` request whose single command fails, with `fail_fast`
set. -/
def failFastReq : RunRequest :=
  { commands := [{ command := "exit 1".data, output := [], exit_code := 1 }]
    workdir := none
    archive := none
    fail_fast := true }

/-- A `run_on_session` request whose first of two commands fails, with
`fail_fast` set. -/
def failFastTwoReq : RunRequest :=
  { commands :=
      [{ command := "exit 1".data, output := [], exit_code := 1 },
       { command := "echo ok".data, output := [111, 107], exit_code := 0 }]
    workdir := none
    archive := none
    fail_fast := true }

/-- A `run_on_session` request that sets the `workdir` field. -/
def workdirOverrideReq : RunRequest :=
  { commands := [{ command := "pwd".data, output := [], exit_code := 0 }]
    workdir := some WORKDIR_ROOT
    archive := none
    fail_fast := false }

/-! ## Helper lemmas: the permission policy -/

theorem land_511_land_3584 (x : Nat) : x &&& 511 &&& 3584 = 0 := by
  rw [Nat.land_assoc, show (511 &&& 3584 : Nat) = 0 from rfl]; simp

theorem land_511_land_73 (x : Nat) : x &&& 511 &&& 73 = x &&& 73 := by
  rw [Nat.land_assoc, show (511 &&& 73 : Nat) = 73 from rfl]

/-- The code's mode computation agrees with the §4.1 policy as worded. -/
theorem sanitizeMode_eq_claimedMode (x : Nat) (d : Bool) :
    sanitizeMode x d = claimedMode x d := by
  simp only [sanitizeMode, claimedMode, andNot, land_511_land_3584, Nat.sub_zero,
    land_511_land_73]

/-! ## Helper lemmas: POSIX path splitting -/

theorem splitOnSlash_ne_nil (l : List Char) : splitOnSlash l ≠ [] := by
  cases l with
  | nil => simp [splitOnSlash]
  | cons c t =>
    by_cases hc : c = '/'
    · simp [splitOnSlash, hc]
    · cases h : splitOnSlash t <;> simp [splitOnSlash, hc, h]

theorem splitOnSlash_cons_slash (t : List Char) :
    splitOnSlash ('/' :: t) = [] :: splitOnSlash t := by
  simp [splitOnSlash]

theorem splitOnSlash_cons_ne {c : Char} (hc : c ≠ '/') {t : List Char}
    {g : List Char} {gs : List (List Char)} (h : splitOnSlash t = g :: gs) :
    splitOnSlash (c :: t) = (c :: g) :: gs := by
  simp [splitOnSlash, hc, h]

theorem splitOnSlash_no_slash : ∀ l : List Char, ∀ g ∈ splitOnSlash l, '/' ∉ g := by
  intro l
  induction l with
  | nil =>
    intro g hg
    simp [splitOnSlash] at hg
    simp [hg]
  | cons c t ih =>
    intro g hg
    by_cases hc : c = '/'
    · subst hc
      rw [splitOnSlash_cons_slash] at hg
      rcases List.mem_cons.mp hg with hg | hg
      · simp [hg]
      · exact ih g hg
    · cases h : splitOnSlash t with
      | nil => exact absurd h (splitOnSlash_ne_nil t)
      | cons g0 gs =>
        rw [splitOnSlash_cons_ne hc h] at hg
        rcases List.mem_cons.mp hg with hg | hg
        · subst hg
          intro hmem
          rcases List.mem_cons.mp hmem with hmem | hmem
          · exact hc hmem.symm
          · exact ih g0 (by rw [h]; exact List.mem_cons_self g0 gs) hmem
        · exact ih g (by rw [h]; exact List.mem_cons_of_mem g0 hg)

theorem splitOnSlash_append {g : List Char} (hg : '/' ∉ g) (rest : List Char) :
    splitOnSlash (g ++ '/' :: rest) = g :: splitOnSlash rest := by
  induction g with
  | nil => simpa using splitOnSlash_cons_slash rest
  | cons c g' ih =>
    have hc : c ≠ '/' := fun hce => hg (hce ▸ List.mem_cons_self c g')
    have hg' : '/' ∉ g' := fun hm => hg (List.mem_cons_of_mem c hm)
    have := ih hg'
    rw [List.cons_append, splitOnSlash_cons_ne hc this]

theorem splitOnSlash_of_no_slash {g : List Char} (hg : '/' ∉ g) :
    splitOnSlash g = [g] := by
  induction g with
  | nil => rfl
  | cons c g' ih =>
    have hc : c ≠ '/' := fun hce => hg (hce ▸ List.mem_cons_self c g')
    have hg' : '/' ∉ g' := fun hm => hg (List.mem_cons_of_mem c hm)
    rw [splitOnSlash_cons_ne hc (ih hg')]

/-- Splitting the slash-joined components recovers them, provided every
component is kept (non-empty, not `"."`) and slash-free. -/
theorem posixComps_joinComps :
    ∀ comps : List (List Char),
      (∀ c ∈ comps, keptComp c = true ∧ '/' ∉ c) →
      posixComps (joinComps comps) = comps := by
  intro comps
  induction comps with
  | nil => intro _; rfl
  | cons g rest ih =>
    intro hprops
    have hkept : keptComp g = true := (hprops g (List.mem_cons_self g rest)).1
    have hslash : '/' ∉ g := (hprops g (List.mem_cons_self g rest)).2
    cases rest with
    | nil =>
      show posixComps (joinComps [g]) = [g]
      unfold joinComps posixComps
      rw [splitOnSlash_of_no_slash hslash]
      simp [hkept]
    | cons g' rest' =>
      have hrest : ∀ c ∈ g' :: rest', keptComp c = true ∧ '/' ∉ c :=
        fun c hc => hprops c (List.mem_cons_of_mem g hc)
      show posixComps (g ++ '/' :: joinComps (g' :: rest')) = g :: g' :: rest'
      unfold posixComps
      rw [splitOnSlash_append hslash]
      simp only [List.filter_cons, hkept]
      have := ih hrest
      unfold posixComps at this
      rw [this]
      simp

theorem posixComps_props (l : List Char) :
    ∀ c ∈ posixComps l, keptComp c = true ∧ '/' ∉ c :=
  fun c hc =>
    ⟨List.of_mem_filter hc, splitOnSlash_no_slash l c (List.mem_of_mem_filter hc)⟩

theorem joinComps_ne_nil {g : List Char} (hg : g ≠ []) (gs : List (List Char)) :
    joinComps (g :: gs) ≠ [] := by
  cases gs <;> simp [joinComps, hg]

theorem joinComps_ne_dot {g : List Char} (hg : g ≠ []) (hgd : g ≠ ['.'])
    (gs : List (List Char)) : joinComps (g :: gs) ≠ ['.'] := by
  cases gs with
  | nil => simpa [joinComps] using hgd
  | cons g' gs' =>
    cases g with
    | nil => exact absurd rfl hg
    | cons c g0 =>
      simp [joinComps]

theorem isAbsolutePath_joinComps {c : Char} (hc : c ≠ '/') (g : List Char)
    (gs : List (List Char)) :
    isAbsolutePath (joinComps ((c :: g) :: gs)) = false := by
  cases gs <;> simp [joinComps, isAbsolutePath, hc]

theorem splitOnSlash_head_nil {t : List Char} {gs : List (List Char)}
    (h : splitOnSlash t = [] :: gs) : t = [] ∨ ∃ t', t = '/' :: t' := by
  cases t with
  | nil => exact Or.inl rfl
  | cons c t' =>
    by_cases hc : c = '/'
    · exact Or.inr ⟨t', by rw [hc]⟩
    · cases ht : splitOnSlash t' with
      | nil => exact absurd ht (splitOnSlash_ne_nil t')
      | cons g0 gs0 =>
        rw [splitOnSlash_cons_ne hc ht] at h
        cases h

/-- A non-empty, non-root, relative path with no leading `"./"` has at least
one kept component. -/
theorem posixComps_ne_nil {s : List Char} (hne : s ≠ []) (hdot : s ≠ ['.'])
    (habs : isAbsolutePath s = false)
    (hds : ∀ r, s ≠ '.' :: '/' :: r) :
    ∃ g gs, posixComps s = g :: gs := by
  cases s with
  | nil => exact absurd rfl hne
  | cons c t =>
    have hc : c ≠ '/' := by
      intro hce
      rw [hce] at habs
      simp [isAbsolutePath] at habs
    cases ht : splitOnSlash t with
    | nil => exact absurd ht (splitOnSlash_ne_nil t)
    | cons g0 gs0 =>
      have hsplit := splitOnSlash_cons_ne hc ht
      have hkept : keptComp (c :: g0) = true := by
        simp only [keptComp, decide_eq_true_eq]
        refine ⟨by simp, ?_⟩
        intro hcd
        have hcc : c = '.' ∧ g0 = [] := by
          simpa using hcd
        rcases splitOnSlash_head_nil (hcc.2 ▸ ht) with h0 | ⟨t', ht'⟩
        · exact hdot (by rw [h0, hcc.1])
        · exact hds t' (by rw [ht', hcc.1])
      refine ⟨c :: g0, List.filter keptComp gs0, ?_⟩
      unfold posixComps
      rw [hsplit, List.filter_cons, if_pos (by simp [hkept])]

/-! ## Helper lemmas: name normalization -/

theorem strip_no_dotslash :
    ∀ (l : List Char) (r : List Char), stripDotSlashes l ≠ '.' :: '/' :: r := by
  intro l
  induction l using stripDotSlashes.induct with
  | case1 rest ih => intro r; simpa [stripDotSlashes] using ih r
  | case2 l h =>
    intro r
    rw [stripDotSlashes]
    · exact fun hh => h r hh
    · exact h

/-- A name the normalizer accepts comes out relative, free of `".."`
segments, and non-empty. -/
theorem normalize_ok_some {name nn : List Char}
    (h : normalize_tar_member_name name = .ok (some nn)) :
    isAbsolutePath nn = false ∧ hasDotDotSegment nn = false ∧ nn ≠ [] := by
  unfold normalize_tar_member_name at h
  by_cases h1 : stripDotSlashes name = [] ∨ stripDotSlashes name = ['.']
  · rw [if_pos h1] at h; simp at h
  · rw [if_neg h1] at h
    by_cases h2 : isAbsolutePath (stripDotSlashes name) = true
    · rw [if_pos h2] at h; simp at h
    · rw [if_neg h2] at h
      by_cases h3 : hasDotDotSegment (stripDotSlashes name) = true
      · rw [if_pos h3] at h; simp at h
      · rw [if_neg h3] at h
        by_cases h4 : posixStr (stripDotSlashes name) = [] ∨
            posixStr (stripDotSlashes name) = ['.']
        · rw [if_pos h4] at h; simp at h
        · rw [if_neg h4] at h
          have hnn : nn = posixStr (stripDotSlashes name) := by
            simpa using h.symm
          subst hnn
          cases hpc : posixComps (stripDotSlashes name) with
          | nil =>
            exact absurd (by unfold posixStr; rw [hpc]) (fun hh => h4 (Or.inr hh))
          | cons g gs =>
            have hstr : posixStr (stripDotSlashes name) = joinComps (g :: gs) := by
              unfold posixStr; rw [hpc]
            have hprops : ∀ c ∈ g :: gs, keptComp c = true ∧ '/' ∉ c := by
              intro c hcmem
              exact posixComps_props _ c (hpc ▸ hcmem)
            have hgkept := (hprops g (List.mem_cons_self g gs)).1
            have hgslash := (hprops g (List.mem_cons_self g gs)).2
            have hgne : g ≠ [] := by
              intro hge
              rw [hge] at hgkept
              simp [keptComp] at hgkept
            obtain ⟨c, g0, hcg⟩ : ∃ c g0, g = c :: g0 := by
              cases g with
              | nil => exact absurd rfl hgne
              | cons c g0 => exact ⟨c, g0, rfl⟩
            have hchs : c ≠ '/' := by
              intro hcs
              exact hgslash (hcg ▸ hcs ▸ List.mem_cons_self c g0)
            have habs : isAbsolutePath (posixStr (stripDotSlashes name)) = false := by
              rw [hstr, hcg]
              exact isAbsolutePath_joinComps hchs g0 gs
            have hround : posixComps (posixStr (stripDotSlashes name)) = g :: gs := by
              rw [hstr]
              exact posixComps_joinComps (g :: gs) hprops
            refine ⟨habs, ?_, ?_⟩
            · unfold hasDotDotSegment
              rw [hround]
              have : hasDotDotSegment (stripDotSlashes name) = false :=
                eq_false_of_ne_true h3
              unfold hasDotDotSegment at this
              rw [hpc] at this
              exact this
            · rw [hstr, hcg]
              exact joinComps_ne_nil (by simp) gs

theorem normalize_error_absolute {name : List Char}
    (hne : stripDotSlashes name ≠ []) (hdot : stripDotSlashes name ≠ ['.'])
    (habs : isAbsolutePath (stripDotSlashes name) = true) :
    normalize_tar_member_name name =
      .error (.valueError "Archive contains an absolute path".data) := by
  unfold normalize_tar_member_name
  rw [if_neg (by push_neg; exact ⟨hne, hdot⟩), if_pos habs]

theorem normalize_error_dotdot {name : List Char}
    (hne : stripDotSlashes name ≠ []) (hdot : stripDotSlashes name ≠ ['.'])
    (habs : isAbsolutePath (stripDotSlashes name) = false)
    (hdd : hasDotDotSegment (stripDotSlashes name) = true) :
    normalize_tar_member_name name =
      .error (.valueError "Archive contains a parent-directory traversal path".data) := by
  unfold normalize_tar_member_name
  rw [if_neg (by push_neg; exact ⟨hne, hdot⟩), if_neg (by simp [habs]), if_pos hdd]

theorem normalize_reaches_some {name : List Char}
    (hne : stripDotSlashes name ≠ []) (hdot : stripDotSlashes name ≠ ['.'])
    (habs : isAbsolutePath (stripDotSlashes name) = false)
    (hdd : hasDotDotSegment (stripDotSlashes name) = false) :
    ∃ nn, normalize_tar_member_name name = .ok (some nn) := by
  obtain ⟨g, gs, hpc⟩ :=
    posixComps_ne_nil hne hdot habs (strip_no_dotslash name)
  have hgkept := (posixComps_props _ g (hpc ▸ List.mem_cons_self g gs)).1
  have hgne : g ≠ [] := by
    intro hge; rw [hge] at hgkept; simp [keptComp] at hgkept
  have hgdot : g ≠ ['.'] := by
    intro hge; rw [hge] at hgkept; simp [keptComp] at hgkept
  have hstr : posixStr (stripDotSlashes name) = joinComps (g :: gs) := by
    unfold posixStr; rw [hpc]
  refine ⟨posixStr (stripDotSlashes name), ?_⟩
  unfold normalize_tar_member_name
  rw [if_neg (by push_neg; exact ⟨hne, hdot⟩), if_neg (by simp [habs]),
    if_neg (by simp [hdd]), if_neg ?_]
  push_neg
  rw [hstr]
  exact ⟨joinComps_ne_nil hgne gs, joinComps_ne_dot hgne hgdot gs⟩

theorem sanitize_member_of_normalize_error {m : TarMember} {e : PyError}
    (h : normalize_tar_member_name m.name = .error e) (uid gid : Nat) :
    sanitize_member uid gid m = .error e := by
  unfold sanitize_member
  rw [h]
  rfl

theorem sanitize_member_special {m : TarMember} {nn : List Char}
    (h : normalize_tar_member_name m.name = .ok (some nn))
    (hf : m.ttype.isfile = false) (hd : m.ttype.isdir = false) (uid gid : Nat) :
    sanitize_member uid gid m =
      .error (.valueError "Archive contains an unsupported entry type".data) := by
  unfold sanitize_member
  rw [h]
  show (if ¬ (m.ttype.isfile = true ∨ m.ttype.isdir = true) then _ else _ : Except PyError _) = _
  rw [if_pos (by simp [hf, hd])]
  rfl

theorem member_rejected_error {m : TarMember} (h : member_rejected m = true)
    (uid gid : Nat) : ∃ e, sanitize_member uid gid m = .error e := by
  unfold member_rejected at h
  simp only [decide_eq_true_eq] at h
  obtain ⟨hne, hdot, hrest⟩ := h
  by_cases habs : isAbsolutePath (stripDotSlashes m.name) = true
  · exact ⟨_, sanitize_member_of_normalize_error
      (normalize_error_absolute hne hdot habs) uid gid⟩
  · have habs' := eq_false_of_ne_true habs
    by_cases hdd : hasDotDotSegment (stripDotSlashes m.name) = true
    · exact ⟨_, sanitize_member_of_normalize_error
        (normalize_error_dotdot hne hdot habs' hdd) uid gid⟩
    · have hdd' := eq_false_of_ne_true hdd
      have hspec : m.ttype.isfile = false ∧ m.ttype.isdir = false := by
        rcases hrest with h | h | h
        · exact absurd h habs
        · exact absurd h hdd
        · exact h
      obtain ⟨nn, hnn⟩ := normalize_reaches_some hne hdot habs' hdd'
      exact ⟨_, sanitize_member_special hnn hspec.1 hspec.2 uid gid⟩

theorem sanitize_member_of_normalize_some {m : TarMember} {nn : List Char}
    (h : normalize_tar_member_name m.name = .ok (some nn)) (uid gid : Nat) :
    sanitize_member uid gid m =
      if ¬ (m.ttype.isfile = true ∨ m.ttype.isdir = true) then
        .error (.valueError "Archive contains an unsupported entry type".data)
      else if m.ttype.isdir = true then
        .ok (some
          { name := nn
            ttype := .dir
            mode := sanitizeMode m.mode true
            size := 0
            content := []
            uid := uid
            gid := gid
            uname := []
            gname := []
            mtime := 0 })
      else
        .ok (some
          { name := nn
            ttype := .reg
            mode := sanitizeMode m.mode false
            size := m.size
            content := m.content
            uid := uid
            gid := gid
            uname := []
            gname := []
            mtime := 0 }) := by
  unfold sanitize_member
  rw [h]
  rfl

theorem sanitize_member_ok {uid gid : Nat} {m m' : TarMember}
    (h : sanitize_member uid gid m = .ok (some m')) :
    (m'.ttype = .reg ∨ m'.ttype = .dir) ∧
    isAbsolutePath m'.name = false ∧
    hasDotDotSegment m'.name = false ∧
    m'.uid = uid ∧ m'.gid = gid ∧ m'.uname = [] ∧ m'.gname = [] ∧ m'.mtime = 0 ∧
    m'.mode = claimedMode m.mode m.ttype.isdir ∧
    (m'.ttype = .dir ↔ m.ttype = .dir) := by
  cases hn : normalize_tar_member_name m.name with
  | error e =>
    rw [sanitize_member_of_normalize_error hn uid gid] at h
    cases h
  | ok r =>
    cases r with
    | none =>
      have : sanitize_member uid gid m = .ok none := by
        unfold sanitize_member
        rw [hn]
        rfl
      rw [this] at h
      cases h
    | some nn =>
      obtain ⟨habs, hdd, -⟩ := normalize_ok_some hn
      rw [sanitize_member_of_normalize_some hn uid gid] at h
      cases htt : m.ttype with
      | reg =>
        rw [htt] at h
        simp only [TarType.isfile, TarType.isdir, Bool.false_eq_true, or_false,
          not_true_eq_false, if_false, reduceIte,
          Except.ok.injEq, Option.some.injEq] at h
        subst h
        refine ⟨Or.inl rfl, habs, hdd, rfl, rfl, rfl, rfl, rfl, ?_, by simp [htt]⟩
        simpa [TarType.isdir] using sanitizeMode_eq_claimedMode m.mode false
      | dir =>
        rw [htt] at h
        simp only [TarType.isfile, TarType.isdir, Bool.false_eq_true, false_or,
          not_true_eq_false, if_false, reduceIte,
          Except.ok.injEq, Option.some.injEq] at h
        subst h
        refine ⟨Or.inr rfl, habs, hdd, rfl, rfl, rfl, rfl, rfl, ?_, by simp [htt]⟩
        simpa [TarType.isdir] using sanitizeMode_eq_claimedMode m.mode true
      | sym => rw [htt] at h; simp [TarType.isfile, TarType.isdir] at h
      | lnk => rw [htt] at h; simp [TarType.isfile, TarType.isdir] at h
      | chr => rw [htt] at h; simp [TarType.isfile, TarType.isdir] at h
      | blk => rw [htt] at h; simp [TarType.isfile, TarType.isdir] at h
      | fifo => rw [htt] at h; simp [TarType.isfile, TarType.isdir] at h
      | other => rw [htt] at h; simp [TarType.isfile, TarType.isdir] at h

theorem isfile_eq_reg {t : TarType} (h : t.isfile = true) : t = .reg := by
  cases t <;> simp_all [TarType.isfile]

theorem sanitize_member_file_content {uid gid : Nat} {m m' : TarMember}
    (h : sanitize_member uid gid m = .ok (some m'))
    (hf : m.ttype.isfile = true) :
    m'.content = m.content ∧ m'.size = m.size := by
  cases hn : normalize_tar_member_name m.name with
  | error e =>
    rw [sanitize_member_of_normalize_error hn uid gid] at h
    cases h
  | ok r =>
    cases r with
    | none =>
      have hnone : sanitize_member uid gid m = .ok none := by
        unfold sanitize_member
        rw [hn]
        rfl
      rw [hnone] at h
      cases h
    | some nn =>
      rw [sanitize_member_of_normalize_some hn uid gid] at h
      have htt := isfile_eq_reg hf
      simp only [htt, TarType.isfile, TarType.isdir, Bool.false_eq_true, or_false,
        not_true_eq_false, if_false, reduceIte,
        Except.ok.injEq, Option.some.injEq] at h
      subst h
      exact ⟨rfl, rfl⟩

theorem sanitize_cons_error {uid gid : Nat} {m : TarMember} {e : PyError}
    (h : sanitize_member uid gid m = .error e) (ms : List TarMember) :
    sanitize_archive_bytes uid gid (m :: ms) = .error e := by
  unfold sanitize_archive_bytes
  rw [h]
  rfl

theorem sanitize_cons_none {uid gid : Nat} {m : TarMember}
    (h : sanitize_member uid gid m = .ok none) (ms : List TarMember) :
    sanitize_archive_bytes uid gid (m :: ms) = sanitize_archive_bytes uid gid ms := by
  conv_lhs => rw [sanitize_archive_bytes]
  rw [h]
  cases hs : sanitize_archive_bytes uid gid ms <;> rfl

theorem sanitize_cons_some {uid gid : Nat} {m m' : TarMember}
    (h : sanitize_member uid gid m = .ok (some m')) (ms : List TarMember) :
    sanitize_archive_bytes uid gid (m :: ms) =
      Except.map (fun out => m' :: out) (sanitize_archive_bytes uid gid ms) := by
  conv_lhs => rw [sanitize_archive_bytes]
  rw [h]
  cases hs : sanitize_archive_bytes uid gid ms <;> rfl

theorem sanitize_archive_mem {uid gid : Nat} :
    ∀ (ms out : List TarMember),
      sanitize_archive_bytes uid gid ms = .ok out →
      ∀ m' ∈ out, ∃ m ∈ ms, sanitize_member uid gid m = .ok (some m') := by
  intro ms
  induction ms with
  | nil =>
    intro out h m' hm'
    unfold sanitize_archive_bytes at h
    cases h
    cases hm'
  | cons a t ih =>
    intro out h m' hm'
    cases hsm : sanitize_member uid gid a with
    | error e =>
      rw [sanitize_cons_error hsm t] at h
      cases h
    | ok r =>
      cases r with
      | none =>
        rw [sanitize_cons_none hsm t] at h
        obtain ⟨m, hmem, hsm'⟩ := ih out h m' hm'
        exact ⟨m, List.mem_cons_of_mem a hmem, hsm'⟩
      | some b =>
        rw [sanitize_cons_some hsm t] at h
        cases hrest : sanitize_archive_bytes uid gid t with
        | error e => rw [hrest] at h; cases h
        | ok l =>
          rw [hrest] at h
          have hout : out = b :: l := by
            simpa [Except.map] using h.symm
          subst hout
          rcases List.mem_cons.mp hm' with rfl | hml
          · exact ⟨a, List.mem_cons_self a t, hsm⟩
          · obtain ⟨m, hmem, hsm'⟩ := ih l hrest m' hml
            exact ⟨m, List.mem_cons_of_mem a hmem, hsm'⟩

theorem sanitize_archive_filterMap {uid gid : Nat} :
    ∀ (ms out : List TarMember),
      sanitize_archive_bytes uid gid ms = .ok out →
      out = ms.filterMap (sanitize_member_accepted uid gid) := by
  intro ms
  induction ms with
  | nil =>
    intro out h
    unfold sanitize_archive_bytes at h
    cases h
    rfl
  | cons a t ih =>
    intro out h
    cases hsm : sanitize_member uid gid a with
    | error e =>
      rw [sanitize_cons_error hsm t] at h
      cases h
    | ok r =>
      cases r with
      | none =>
        rw [sanitize_cons_none hsm t] at h
        rw [List.filterMap_cons]
        have hacc : sanitize_member_accepted uid gid a = none := by
          unfold sanitize_member_accepted
          rw [hsm]
        rw [hacc]
        exact ih out h
      | some b =>
        rw [sanitize_cons_some hsm t] at h
        cases hrest : sanitize_archive_bytes uid gid t with
        | error e => rw [hrest] at h; cases h
        | ok l =>
          rw [hrest] at h
          have hout : out = b :: l := by
            simpa [Except.map] using h.symm
          subst hout
          rw [List.filterMap_cons]
          have hacc : sanitize_member_accepted uid gid a = some b := by
            unfold sanitize_member_accepted
            rw [hsm]
          rw [hacc, ih l hrest]

/-- Claim C1: every member of a sanitizer-accepted archive is a regular file
or directory, with a relative, traversal-free path, the configured uid/gid,
empty uname/gname, zero mtime, and the §4.1 mode derived from its input
member's mode. -/
theorem claim_C1_sanitizer_member_invariants (uid gid : Nat)
    (ms out : List TarMember)
    (h : sanitize_archive_bytes uid gid ms = .ok out) :
    ∀ m' ∈ out,
      (m'.ttype = .reg ∨ m'.ttype = .dir) ∧
      isAbsolutePath m'.name = false ∧
      hasDotDotSegment m'.name = false ∧
      m'.uid = uid ∧ m'.gid = gid ∧ m'.uname = [] ∧ m'.gname = [] ∧ m'.mtime = 0 ∧
      ∃ m ∈ ms, sanitize_member uid gid m = .ok (some m') ∧
        m'.mode = claimedMode m.mode m.ttype.isdir ∧
        (m'.ttype = .dir ↔ m.ttype = .dir) := by
  intro m' hm'
  obtain ⟨m, hmem, hsm⟩ := sanitize_archive_mem ms out h m' hm'
  obtain ⟨h1, h2, h3, h4, h5, h6, h7, h8, h9, h10⟩ := sanitize_member_ok hsm
  exact ⟨h1, h2, h3, h4, h5, h6, h7, h8, m, hmem, hsm, h9, h10⟩

/-- Witness for C1 at a concrete archive and output member. -/
theorem claim_C1_witness :
    ∃ m ∈ sampleArchive, sanitize_member 1000 1000 m = .ok (some sampleFileOut) ∧
      sampleFileOut.mode = claimedMode m.mode m.ttype.isdir ∧
      (sampleFileOut.ttype = .dir ↔ m.ttype = .dir) :=
  (claim_C1_sanitizer_member_invariants 1000 1000 sampleArchive sampleArchiveOut
    (by rfl) sampleFileOut (by decide)).2.2.2.2.2.2.2.2

/-- Claim C2 counterexample: an archive whose only member is a symlink named
`"."` contains a symlink, yet the sanitizer succeeds (the member's name
normalizes to an empty/root entry, so it is skipped before the type check)
and returns an empty output archive instead of failing. -/
theorem claim_C2_counterexample :
    rootNamedSymlink.ttype ≠ .reg ∧ rootNamedSymlink.ttype ≠ .dir ∧
    sanitize_archive_bytes 1000 1000 [rootNamedSymlink] = .ok [] :=
  ⟨by decide, by decide, by rfl⟩

/-- Claim C2 (amended): an input containing a member that is rejected — its
stripped name is a non-root entry and is absolute, has a `".."` segment, or
belongs to a non-file, non-directory member — makes the whole sanitizer call
fail, and the raised error means no output bytes are produced. -/
theorem claim_C2_rejected_member_fails (uid gid : Nat) (ms : List TarMember)
    (h : ∃ m ∈ ms, member_rejected m = true) :
    ∃ e, sanitize_archive_bytes uid gid ms = .error e := by
  revert h
  induction ms with
  | nil =>
    rintro ⟨m, hm, -⟩
    cases hm
  | cons a t ih =>
    rintro ⟨m, hm, hrej⟩
    cases hsm : sanitize_member uid gid a with
    | error e => exact ⟨e, sanitize_cons_error hsm t⟩
    | ok r =>
      rcases List.mem_cons.mp hm with rfl | hmem
      · obtain ⟨e, he⟩ := member_rejected_error hrej uid gid
        rw [he] at hsm
        cases hsm
      · obtain ⟨e, he⟩ := ih ⟨m, hmem, hrej⟩
        cases r with
        | none => exact ⟨e, by rw [sanitize_cons_none hsm t, he]⟩
        | some b => exact ⟨e, by rw [sanitize_cons_some hsm t, he]; rfl⟩

/-- Witness for the amended C2 at a concrete archive holding an
absolute-path file member. -/
theorem claim_C2_witness :
    ∃ e, sanitize_archive_bytes 1000 1000 [absolutePathFile] = .error e :=
  claim_C2_rejected_member_fails 1000 1000 [absolutePathFile]
    ⟨absolutePathFile, by decide, by decide⟩

/-- Claim C10: the sanitizer is a per-member transformation — the output is
exactly the in-order image of the accepted input members (skipped entries
excluded, no reordering or deduplication), and regular files keep their
content bytes and size. -/
theorem claim_C10_per_member_stream (uid gid : Nat) (ms out : List TarMember)
    (h : sanitize_archive_bytes uid gid ms = .ok out) :
    out = ms.filterMap (sanitize_member_accepted uid gid) ∧
    ∀ m ∈ ms, ∀ m', sanitize_member uid gid m = .ok (some m') →
      m.ttype.isfile = true → m'.content = m.content ∧ m'.size = m.size :=
  ⟨sanitize_archive_filterMap ms out h,
   fun _ _ _ hm hf => sanitize_member_file_content hm hf⟩

/-- Witness for C10 at a concrete archive. -/
theorem claim_C10_witness :
    sampleArchiveOut = sampleArchive.filterMap (sanitize_member_accepted 1000 1000) :=
  (claim_C10_per_member_stream 1000 1000 sampleArchive sampleArchiveOut (by rfl)).1

theorem loop_cons (cfg : Settings) (ff : Bool) (c : CommandSpec)
    (rest : List CommandSpec) :
    run_commands_loop cfg ff (c :: rest) =
      if ff = true ∧ c.exit_code ≠ 0 then
        [execute_command cfg c.command none c.output c.exit_code]
      else
        execute_command cfg c.command none c.output c.exit_code ::
          run_commands_loop cfg ff rest := rfl

theorem loop_length_le (cfg : Settings) (ff : Bool) :
    ∀ cs : List CommandSpec, (run_commands_loop cfg ff cs).length ≤ cs.length := by
  intro cs
  induction cs with
  | nil => simp [run_commands_loop]
  | cons c rest ih =>
    rw [loop_cons]
    by_cases hb : ff = true ∧ c.exit_code ≠ 0
    · rw [if_pos hb]
      simp
    · rw [if_neg hb]
      simpa using Nat.succ_le_succ ih

theorem loop_length_false (cfg : Settings) :
    ∀ cs : List CommandSpec,
      (run_commands_loop cfg false cs).length = cs.length := by
  intro cs
  induction cs with
  | nil => rfl
  | cons c rest ih =>
    rw [loop_cons, if_neg (by simp)]
    simp [ih]

theorem loop_length_eq_iff (cfg : Settings) (ff : Bool) :
    ∀ cs : List CommandSpec,
      ((run_commands_loop cfg ff cs).length = cs.length ↔
        (ff = false ∨ ∀ c ∈ cs.dropLast, c.exit_code = 0)) := by
  intro cs
  cases ff with
  | false => simp [loop_length_false]
  | true =>
    induction cs with
    | nil => simp [run_commands_loop]
    | cons c rest ih =>
      rw [loop_cons]
      by_cases hc : c.exit_code = 0
      · rw [if_neg (by simp [hc])]
        cases rest with
        | nil => simp [run_commands_loop]
        | cons d rest' =>
          simp only [List.length_cons, Nat.succ.injEq, List.dropLast_cons₂,
            List.mem_cons, Bool.true_eq_false, false_or] at ih ⊢
          rw [ih]
          constructor
          · intro hall x hx
            rcases hx with rfl | hx
            · exact hc
            · exact hall x hx
          · intro hall x hx
            exact hall x (Or.inr hx)
      · rw [if_pos ⟨rfl, hc⟩]
        cases rest with
        | nil => simp
        | cons d rest' =>
          constructor
          · intro hlen
            simp at hlen
          · intro hall
            rcases hall with hall | hall
            · cases hall
            · exact absurd (hall c (by rw [List.dropLast_cons₂]; exact List.mem_cons_self c _)) hc

theorem loop_take_map (cfg : Settings) (ff : Bool) :
    ∀ cs : List CommandSpec,
      run_commands_loop cfg ff cs =
        ((cs.take (run_commands_loop cfg ff cs).length).map
          (fun c => execute_command cfg c.command none c.output c.exit_code)) := by
  intro cs
  induction cs with
  | nil => rfl
  | cons c rest ih =>
    rw [loop_cons]
    by_cases hb : ff = true ∧ c.exit_code ≠ 0
    · rw [if_pos hb]
      rfl
    · rw [if_neg hb]
      simp only [List.length_cons, List.take_succ_cons, List.map_cons]
      exact congrArg _ ih

theorem loop_ne_nil (cfg : Settings) (ff : Bool) (c : CommandSpec)
    (rest : List CommandSpec) : run_commands_loop cfg ff (c :: rest) ≠ [] := by
  rw [loop_cons]
  by_cases hb : ff = true ∧ c.exit_code ≠ 0
  · rw [if_pos hb]; simp
  · rw [if_neg hb]; simp

theorem loop_stop_failed (cfg : Settings) :
    ∀ cs : List CommandSpec,
      (run_commands_loop cfg true cs).length < cs.length →
      ∃ r, ((run_commands_loop cfg true cs).map Prod.snd).getLast? = some r ∧
        r.exit_code ≠ 0 := by
  intro cs
  induction cs with
  | nil => intro h; simp [run_commands_loop] at h
  | cons c rest ih =>
    intro hlt
    rw [loop_cons] at hlt ⊢
    by_cases hb : c.exit_code ≠ 0
    · rw [if_pos ⟨rfl, hb⟩]
      exact ⟨(execute_command cfg c.command none c.output c.exit_code).2, rfl, hb⟩
    · rw [if_neg (by simp [hb])] at hlt ⊢
      have hlt' : (run_commands_loop cfg true rest).length < rest.length := by
        simpa using hlt
      obtain ⟨r, hr, hne⟩ := ih hlt'
      refine ⟨r, ?_, hne⟩
      cases hrest : run_commands_loop cfg true rest with
      | nil =>
        rw [hrest] at hlt'
        cases rest with
        | nil => simp at hlt'
        | cons d rest' => exact absurd hrest (loop_ne_nil cfg true d rest')
      | cons p ps =>
        rw [hrest] at hr
        simp only [List.map_cons]
        rw [List.getLast?_cons_cons]
        simpa using hr

/-- Claim C5 counterexample: with `fail_fast=true` and a single command that
exits non-zero, the response reports as many results as there are commands,
yet `fail_fast` is set and an executed command had a non-zero exit code — the
claimed iff fails at this input. -/
theorem claim_C5_counterexample :
    (run_on_session_results settings failFastReq).length =
      failFastReq.commands.length ∧
    ¬ (failFastReq.fail_fast = false ∨
        ∀ r ∈ run_on_session_results settings failFastReq, r.exit_code = 0) := by
  constructor
  · rfl
  · intro h
    rcases h with h | h
    · cases h
    · have := h (commandRunResult settings
        { command := "exit 1".data, output := [], exit_code := 1 }) (by decide)
      simp [commandRunResult, execute_command] at this

/-- Claim C5 (amended): the loop reports at most one result per command, in
order, as a prefix of the per-command results; the counts are equal iff
`fail_fast` is unset or every command before the last exits 0 (the last
command may fail without truncating the list); and a truncated run ends in
the failing result, the remaining commands being neither executed nor
reported. -/
theorem claim_C5_fail_fast (cfg : Settings) (req : RunRequest) :
    (run_on_session_results cfg req).length ≤ req.commands.length ∧
    ((run_on_session_results cfg req).length = req.commands.length ↔
      (req.fail_fast = false ∨ ∀ c ∈ req.commands.dropLast, c.exit_code = 0)) ∧
    run_on_session_results cfg req =
      (req.commands.take (run_on_session_results cfg req).length).map
        (commandRunResult cfg) ∧
    (req.fail_fast = true →
      (run_on_session_results cfg req).length < req.commands.length →
      ∃ r, (run_on_session_results cfg req).getLast? = some r ∧
        r.exit_code ≠ 0) := by
  refine ⟨?_, ?_, ?_, ?_⟩
  · unfold run_on_session_results run_on_session_execs
    simpa using loop_length_le cfg req.fail_fast req.commands
  · unfold run_on_session_results run_on_session_execs
    simpa using loop_length_eq_iff cfg req.fail_fast req.commands
  · unfold run_on_session_results run_on_session_execs commandRunResult
    rw [List.length_map]
    conv_lhs => rw [loop_take_map cfg req.fail_fast req.commands]
    rw [List.map_map]
    rfl
  · intro hff hlt
    unfold run_on_session_results run_on_session_execs at hlt ⊢
    rw [List.length_map] at hlt
    rw [hff] at hlt ⊢
    exact loop_stop_failed cfg req.commands hlt

/-- Witness for the amended C5: a concrete truncated run ends in the failing
result. -/
theorem claim_C5_witness :
    ∃ r, (run_on_session_results settings failFastTwoReq).getLast? = some r ∧
      r.exit_code ≠ 0 :=
  (claim_C5_fail_fast settings failFastTwoReq).2.2.2 rfl (by decide)

/-- Claim C7: `run_on_session` executes every command with the fixed user
and with working directory `/repo`, even when the request's `workdir` field
is set — the loop at main.py line 188 never passes `request.workdir` to
`execute_command`, contradicting the field's own documented purpose.  At the
failing input the override `/workdir` would resolve to `/workdir`, yet the
exec call uses `/repo`. -/
theorem claim_C7_workdir_ignored :
    workdirOverrideReq.workdir = some WORKDIR_ROOT ∧
    resolve_under_sandbox_root workdirOverrideReq.workdir = WORKDIR_ROOT ∧
    (run_on_session_execs settings workdirOverrideReq).map
      (fun p => p.1.workdir) = [SANDBOX_ROOT] ∧
    SANDBOX_ROOT ≠ WORKDIR_ROOT ∧
    (run_on_session_execs settings workdirOverrideReq).map
      (fun p => p.1.user) = [get_user settings] := by
  refine ⟨rfl, by decide, by decide, by decide, by decide⟩

/-- Claim C4: `close_session` is not idempotent — after a first close
removes the container, a second close on the same id dereferences the
missing container handle in `get_label` and raises `AttributeError`
(HTTP 500) instead of returning 204. -/
theorem claim_C4_close_not_idempotent :
    close_session oneSessionState "abc".data =
      .ok (204, { containers := [], volumes := [] }) ∧
    close_session { containers := [], volumes := [] } "abc".data =
      .error (.attributeError "attrs".data) ∧
    (PyError.attributeError "attrs".data).httpStatus = 500 :=
  ⟨by rfl, by rfl, rfl⟩

/-- Claim C6: every `start_session` request fails with `AttributeError` on
`request.ephemeral`, because `StartSessionRequest` (schemas.py) declares only
`base_image`, `dockerfile` and `extract_patch` while main.py dereferences
`ephemeral`, `network_enabled`, `environment`, `memory_bytes` and `cpus`. -/
theorem claim_C6_request_missing_fields (req : StartSessionRequest) :
    start_session req = .error (.attributeError "ephemeral".data) := rfl

/-- Claim C8: on a patch-extraction turn, a non-zero diff exit without the
"nothing to commit" message raises `PATCH_FAILED` (HTTP 500); otherwise the
patch is null iff the diff output reports "nothing to commit" or strips to
empty, and a non-null patch is exactly the base64 encoding of the diff
output. -/
theorem claim_C8_patch_outcome (ec : Int) (output : List Nat) :
    (ec ≠ 0 ∧ containsSub NO_CHANGES_MESSAGE output = false →
      extract_patch_outcome ec output = .error .httpPatchFailed ∧
      PyError.httpStatus .httpPatchFailed = 500) ∧
    (ec = 0 ∨ containsSub NO_CHANGES_MESSAGE output = true →
      (extract_patch_outcome ec output = .ok none ↔
        (containsSub NO_CHANGES_MESSAGE output = true ∨ stripBytes output = []))) ∧
    (∀ p, extract_patch_outcome ec output = .ok (some p) →
      p = base64Encode output ∧
      containsSub NO_CHANGES_MESSAGE output = false ∧ stripBytes output ≠ []) := by
  refine ⟨?_, ?_, ?_⟩
  · rintro ⟨hne, hnc⟩
    unfold extract_patch_outcome
    rw [if_pos ⟨hne, by simp [hnc]⟩]
    exact ⟨rfl, rfl⟩
  · intro hok
    unfold extract_patch_outcome
    have hcond : ¬ (ec ≠ 0 ∧ ¬ containsSub NO_CHANGES_MESSAGE output = true) := by
      rcases hok with h | h
      · exact fun hh => hh.1 h
      · exact fun hh => hh.2 h
    rw [if_neg hcond]
    by_cases h2 : containsSub NO_CHANGES_MESSAGE output = true ∨ stripBytes output = []
    · rw [if_pos h2]
      simp [h2]
    · rw [if_neg h2]
      simp [h2]
  · intro p hp
    unfold extract_patch_outcome at hp
    by_cases h1 : ec ≠ 0 ∧ ¬ containsSub NO_CHANGES_MESSAGE output = true
    · rw [if_pos h1] at hp
      cases hp
    · rw [if_neg h1] at hp
      by_cases h2 : containsSub NO_CHANGES_MESSAGE output = true ∨ stripBytes output = []
      · rw [if_pos h2] at hp
        cases hp
      · rw [if_neg h2] at hp
        push_neg at h2
        simp only [Except.ok.injEq, Option.some.injEq] at hp
        exact ⟨hp.symm, eq_false_of_ne_true h2.1, h2.2⟩

/-- Witness for C8: a diff step that exits 1 but prints the "nothing to
commit" message yields a null patch. -/
theorem claim_C8_witness :
    extract_patch_outcome 1 NO_CHANGES_MESSAGE = .ok none :=
  ((claim_C8_patch_outcome 1 NO_CHANGES_MESSAGE).2.1
    (Or.inr (by decide))).mpr (Or.inl (by decide))

/-- Claim C9: a `user` entry among the container-creation kwargs is rejected
with an error, a created container always carries the configured
`RUN_UID:RUN_GID` user, and every client command is executed as that user. -/
theorem claim_C9_fixed_user (cfg : Settings) (image : List Char)
    (kwargs : List (List Char × PyVal)) :
    ("user".data ∈ kwargs.map Prod.fst →
      ∃ e, start_container cfg image kwargs = .error e) ∧
    (∀ call, start_container cfg image kwargs = .ok call →
      call.user = get_user cfg) ∧
    (∀ command wd execOutput execExit,
      (execute_command cfg command wd execOutput execExit).1.user =
        get_user cfg) := by
  refine ⟨?_, ?_, ?_⟩
  · intro hu
    unfold start_container
    rw [if_pos hu]
    exact ⟨_, rfl⟩
  · intro call h
    unfold start_container at h
    by_cases hu : "user".data ∈ kwargs.map Prod.fst
    · rw [if_pos hu] at h
      cases h
    · rw [if_neg hu] at h
      simp only [Except.ok.injEq] at h
      rw [← h]
  · intro command wd execOutput execExit
    rfl

/-- Witness for C9: a concrete `user` override is refused, and a concrete
exec call carries the configured user. -/
theorem claim_C9_witness :
    (∃ e, start_container settings "img".data
      [("user".data, PyVal.pstr "root".data)] = .error e) ∧
    (execute_command settings "id".data none [] 0).1.user = get_user settings :=
  ⟨(claim_C9_fixed_user settings "img".data
      [("user".data, PyVal.pstr "root".data)]).1 (by decide),
   (claim_C9_fixed_user settings "img".data []).2.2 "id".data none [] 0⟩

theorem copy_to_container_of_sanitize_error {cfg : Settings}
    {ms : List TarMember} {e : PyError}
    (h : sanitize_archive_bytes cfg.RUN_UID cfg.RUN_GID ms = .error e)
    (dest : Option (List Char)) (clear : Bool) :
    copy_to_container cfg ms dest clear = .error e := by
  unfold copy_to_container
  rw [h]
  rfl

theorem copy_to_container_of_sanitize_ok {cfg : Settings}
    {ms sanitized : List TarMember}
    (h : sanitize_archive_bytes cfg.RUN_UID cfg.RUN_GID ms = .ok sanitized)
    (dest : Option (List Char)) (clear : Bool) :
    copy_to_container cfg ms dest clear =
      if normDest dest = [] ∨ normDest dest = ['/'] then
        .error (.valueError "Refusing to extract an archive into the container root directory".data)
      else if ¬ (normDest dest = SANDBOX_ROOT ∨ normDest dest = WORKDIR_ROOT ∨
          (SANDBOX_ROOT ++ ['/']).isPrefixOf (normDest dest) ∨
          (WORKDIR_ROOT ++ ['/']).isPrefixOf (normDest dest)) then
        .error (.valueError "Refusing to extract an archive outside of the sandbox roots".data)
      else
        .ok ((if clear then [ContainerEffect.execRmClear (normDest dest)] else []) ++
          [ContainerEffect.execMkdir (normDest dest),
           ContainerEffect.putArchive (normDest dest) sanitized,
           ContainerEffect.execChmodR (normDest dest),
           ContainerEffect.execChownR (normDest dest)]) := by
  unfold copy_to_container normDest
  rw [h]
  rfl

/-- Claim C3 counterexample: the destination `"/repo/../etc"` passes the
textual guard of `copy_to_container` — the call succeeds and every
container-mutating effect targets `"/repo/../etc"` — yet that path resolves
to `"/etc"`, outside both `/repo` and `/workdir`. -/
theorem claim_C3_counterexample :
    copy_to_container settings [] (some "/repo/../etc".data) false =
      .ok [ContainerEffect.execMkdir "/repo/../etc".data,
           ContainerEffect.putArchive "/repo/../etc".data [],
           ContainerEffect.execChmodR "/repo/../etc".data,
           ContainerEffect.execChownR "/repo/../etc".data] ∧
    collapseDots (posixComps "/repo/../etc".data) = ["etc".data] ∧
    resolvedUnderSandboxRoots "/repo/../etc".data = false :=
  ⟨by rfl, by rfl, by rfl⟩

/-- Claim C3 (amended): a relative destination resolves by path join under
`/repo` and an absolute destination is used as-is; extraction proceeds only
when the trailing-slash-stripped target textually equals `/repo` or
`/workdir` or extends one of them with a slash (the container root is
refused), every effect then targeting that literal string; any other
destination is refused with an error and no container effect.  The guard is
purely textual: `".."` segments are not resolved, so a target such as
`/repo/../etc` is accepted. -/
theorem claim_C3_destination_policy (cfg : Settings) (ms : List TarMember)
    (dest : Option (List Char)) (clear : Bool) :
    (∀ d, dest = some d → d ≠ [] → isAbsolutePath d = false →
      resolve_under_sandbox_root dest = pathJoinRepo d) ∧
    (∀ d, dest = some d → isAbsolutePath d = true →
      resolve_under_sandbox_root dest = d) ∧
    (dest = none → resolve_under_sandbox_root dest = SANDBOX_ROOT) ∧
    (∀ effs, copy_to_container cfg ms dest clear = .ok effs →
      normDest dest ≠ ['/'] ∧
      (normDest dest = SANDBOX_ROOT ∨ normDest dest = WORKDIR_ROOT ∨
        (SANDBOX_ROOT ++ ['/']).isPrefixOf (normDest dest) = true ∨
        (WORKDIR_ROOT ++ ['/']).isPrefixOf (normDest dest) = true) ∧
      ∃ sanitized,
        sanitize_archive_bytes cfg.RUN_UID cfg.RUN_GID ms = .ok sanitized ∧
        effs = (if clear then [ContainerEffect.execRmClear (normDest dest)] else []) ++
          [ContainerEffect.execMkdir (normDest dest),
           ContainerEffect.putArchive (normDest dest) sanitized,
           ContainerEffect.execChmodR (normDest dest),
           ContainerEffect.execChownR (normDest dest)]) ∧
    (¬ (normDest dest = SANDBOX_ROOT ∨ normDest dest = WORKDIR_ROOT ∨
        (SANDBOX_ROOT ++ ['/']).isPrefixOf (normDest dest) = true ∨
        (WORKDIR_ROOT ++ ['/']).isPrefixOf (normDest dest) = true) →
      ∀ effs, copy_to_container cfg ms dest clear ≠ .ok effs) := by
  refine ⟨?_, ?_, ?_, ?_, ?_⟩
  · intro d hd hne hrel
    subst hd
    show (if d = [] then SANDBOX_ROOT
      else if isAbsolutePath d = true then d else pathJoinRepo d) = pathJoinRepo d
    rw [if_neg hne, if_neg (by simp [hrel])]
  · intro d hd habs
    subst hd
    have hne : d ≠ [] := by
      intro he
      rw [he] at habs
      simp [isAbsolutePath] at habs
    show (if d = [] then SANDBOX_ROOT
      else if isAbsolutePath d = true then d else pathJoinRepo d) = d
    rw [if_neg hne, if_pos habs]
  · intro hd
    subst hd
    rfl
  · intro effs h
    cases hsan : sanitize_archive_bytes cfg.RUN_UID cfg.RUN_GID ms with
    | error e =>
      rw [copy_to_container_of_sanitize_error hsan dest clear] at h
      cases h
    | ok sanitized =>
      rw [copy_to_container_of_sanitize_ok hsan dest clear] at h
      by_cases h1 : normDest dest = [] ∨ normDest dest = ['/']
      · rw [if_pos h1] at h
        cases h
      · rw [if_neg h1] at h
        by_cases h2 : normDest dest = SANDBOX_ROOT ∨ normDest dest = WORKDIR_ROOT ∨
            (SANDBOX_ROOT ++ ['/']).isPrefixOf (normDest dest) = true ∨
            (WORKDIR_ROOT ++ ['/']).isPrefixOf (normDest dest) = true
        · rw [if_neg (not_not_intro h2)] at h
          simp only [Except.ok.injEq] at h
          exact ⟨fun hh => h1 (Or.inr hh), h2, sanitized, rfl, h.symm⟩
        · rw [if_pos h2] at h
          cases h
  · intro hguard effs h
    cases hsan : sanitize_archive_bytes cfg.RUN_UID cfg.RUN_GID ms with
    | error e =>
      rw [copy_to_container_of_sanitize_error hsan dest clear] at h
      cases h
    | ok sanitized =>
      rw [copy_to_container_of_sanitize_ok hsan dest clear] at h
      by_cases h1 : normDest dest = [] ∨ normDest dest = ['/']
      · rw [if_pos h1] at h
        cases h
      · rw [if_neg h1] at h
        rw [if_pos hguard] at h
        cases h

/-- Witness for the amended C3 at concrete destinations: a relative
destination resolves under `/repo`, and extraction into `/etc` is refused. -/
theorem claim_C3_witness :
    resolve_under_sandbox_root (some "sub/dir".data) =
      pathJoinRepo "sub/dir".data ∧
    ∀ effs, copy_to_container settings [] (some "/etc".data) true ≠ .ok effs :=
  ⟨(claim_C3_destination_policy settings [] (some "sub/dir".data) true).1
      "sub/dir".data rfl (by decide) (by decide),
   (claim_C3_destination_policy settings [] (some "/etc".data) true).2.2.2.2
      (by decide)⟩

end DaivSandbox
